import Mathlib

/-!
Verification development for the `terminal-ai` repository.

The TypeScript sources are shallowly embedded: JS strings become Lean
`String`s (JS `trim`/`substring` are modelled explicitly on `String.data`),
JS numbers used for token counts become `Nat`, prices become `Rat`,
`undefined`/`null` becomes `Option`, and the interactive session loop of
`src/commands/agent.ts` becomes a recursive function over an explicit list
of pending user inputs and a script of provider turn results.
-/

namespace TerminalAI

/-! ## JS string primitives used by the sources -/

/-- The whitespace characters removed by JS `String.prototype.trim`
(ASCII part; the sources only ever meet ASCII whitespace). -/
def isJsWhitespace (c : Char) : Bool :=
  c = ' ' || c = '\t' || c = '\n' || c = '\r' || c = '\x0b' || c = '\x0c'

/-- Remove leading and trailing whitespace from a character list. -/
def trimChars (l : List Char) : List Char :=
  ((l.dropWhile isJsWhitespace).reverse.dropWhile isJsWhitespace).reverse

/-- Model of JS `s.trim()`. -/
def jsTrim (s : String) : String :=
  String.mk (trimChars s.data)

/-- Model of JS `s.substring(0, n)` (clamps at the end of the string,
like `List.take`). -/
def jsSubstringTo (s : String) (n : Nat) : String :=
  String.mk (s.data.take n)

/-- Model of JS `s.startsWith(p)`. -/
def jsStartsWith (s p : String) : Bool :=
  s.data.take p.data.length == p.data

/-! ## Data model (`src/llm/interface.ts`) -/

/-- A function/tool call requested by the model (`FunctionCallResult`).
JS `arguments: Record<string, any>` is embedded as an association list of
string keys to string-rendered values. -/
structure FunctionCallResult where
  name : String
  arguments : List (String × String)
  callId : String
deriving DecidableEq, Repr

/-- The result of dispatching one function call (`FunctionCallResponse`). -/
structure FunctionCallResponse where
  name : String
  result : String
  error : Option String
  callId : String
deriving DecidableEq, Repr

/-- Token usage reported by a provider (`TokenUsage`). -/
structure TokenUsage where
  inputTokens : Nat
  outputTokens : Nat
  model : String
deriving DecidableEq, Repr

/-- A conversation message (`Message<MessageRole>`): the conditional type
over the role is embedded as a sum, each role carrying its content shape. -/
inductive Message where
  | system (content : String)
  | user (content : String)
  | assistant (content : String)
  | function_call (calls : List FunctionCallResult)
  | function (results : List FunctionCallResponse)
deriving DecidableEq, Repr

/-- `msg.role === "user"`. -/
def Message.isUser : Message → Bool
  | .user _ => true
  | _ => false

/-- `msg.role === "assistant"`. -/
def Message.isAssistant : Message → Bool
  | .assistant _ => true
  | _ => false

/-- The `content` of a plain-text message (`undefined` for the structured
roles, which the sources never read as text). -/
def Message.textContent : Message → Option String
  | .system c => some c
  | .user c => some c
  | .assistant c => some c
  | _ => none

/-- One provider response (`CompletionResult`); `usage` is optional and
its absence is not an error. -/
structure CompletionResult where
  content : String
  functionCalls : List FunctionCallResult
  usage : Option TokenUsage
deriving DecidableEq, Repr

/-! ## Model/pricing configuration (`src/utils/model-config.ts`) -/

/-- The provider enum (`LLMProviderType`, declared in `src/llm`): the
members named by the `switch` in `getDefaultModel`. -/
inductive LLMProviderType where
  | openai
  | claude
  | gemini
  | ollama
deriving DecidableEq, Repr

/-- `ModelPricing`: price per million tokens, embedded as rationals. -/
structure ModelPricing where
  input : Rat
  output : Rat
deriving DecidableEq, Repr

/-- `ModelConfig`. -/
structure ModelConfig where
  name : String
  value : String
  pricing : ModelPricing
deriving DecidableEq, Repr

/-- `ProviderModelConfig`. -/
structure ProviderModelConfig where
  default : String
  models : List ModelConfig
deriving DecidableEq, Repr

/-- `ModelsConfig`: the YAML object keyed by provider, embedded as an
association list in object-key order. -/
abbrev ModelsConfig := List (LLMProviderType × ProviderModelConfig)

/-- `config[provider]` lookup (`undefined` when the key is absent). -/
def lookupProvider (config : ModelsConfig) (provider : LLMProviderType) :
    Option ProviderModelConfig :=
  (config.find? (fun e => e.1 = provider)).map (fun e => e.2)

/-- `getDefaultModel` over an explicit configuration: `readModelsConfig`
returns `null` (here `none`) when the file is absent or unparseable, and
`config[provider]` may be `undefined`; both take the hardcoded-fallback
`switch`. -/
def getDefaultModel (config : Option ModelsConfig)
    (provider : LLMProviderType) : String :=
  match config.bind (fun c => lookupProvider c provider) with
  | none =>
    match provider with
    | .openai => "gpt-4o"
    | .claude => "claude-3-opus-20240229"
    | .gemini => "gemini-1.5-pro"
    | .ollama => "llama3"
  | some pc => pc.default

/-- The loop of `getModelByValue` over `Object.values(config)`: the first
model whose `value` matches wins, in object order. -/
def findModelInProviders : List (LLMProviderType × ProviderModelConfig) →
    String → Option ModelConfig
  | [], _ => none
  | (_, pc) :: rest, v =>
    match pc.models.find? (fun m => m.value = v) with
    | some m => some m
    | none => findModelInProviders rest v

/-- `getModelByValue`. -/
def getModelByValue (config : Option ModelsConfig) (modelValue : String) :
    Option ModelConfig :=
  match config with
  | none => none
  | some c => findModelInProviders c modelValue

/-- `calculateCost`: token counts are `Nat`, the returned USD amount a
rational. -/
def calculateCost (config : Option ModelsConfig) (modelValue : String)
    (inputTokens outputTokens : Nat) : Rat :=
  match getModelByValue config modelValue with
  | none => 0
  | some m =>
    (inputTokens / 1000000 : Rat) * m.pricing.input +
      (outputTokens / 1000000 : Rat) * m.pricing.output

/-! ## User-input processing (`src/commands/agent.ts`, `processUserInput`) -/

/-- `EXIT_COMMANDS`. -/
def EXIT_COMMANDS : List String := ["exit", "quit", "q"]

/-- `HELP_COMMAND`. -/
def HELP_COMMAND : String := "help"

/-- `processUserInput`: the interactive prompt is embedded as a list of
pending raw input lines. The result is `none` when the lines run out
(the real function would block on the prompt), otherwise
`(shouldContinue, trimmed input, remaining lines)`. `help` and empty
input print and re-prompt, consuming a line but touching nothing else. -/
def processUserInput : List String → Option (Bool × String × List String)
  | [] => none
  | raw :: rest =>
    let trimmedInput := jsTrim raw
    if EXIT_COMMANDS.contains trimmedInput then
      some (false, trimmedInput, rest)
    else if trimmedInput = HELP_COMMAND then
      processUserInput rest
    else if trimmedInput = "" then
      processUserInput rest
    else
      some (true, trimmedInput, rest)

/-! ## The session loop of `runAgentMode` (`src/commands/agent.ts`) -/

/-- What the session loop observes of one
`llm.generateStreamingCompletion` call: the updated history and the
per-turn usage (the LLM service itself lives outside this loop). -/
structure TurnResult where
  history : List Message
  usage : TokenUsage
deriving DecidableEq, Repr

/-- `conversationHistory.find((msg) => msg.role === "user")?.content || ""`. -/
def firstUserContent (history : List Message) : String :=
  (((history.find? Message.isUser).bind Message.textContent)).getD ""

/-- `conversationHistory.find((msg) => msg.role === "assistant")?.content || ""`. -/
def firstAssistantContent (history : List Message) : String :=
  (((history.find? Message.isAssistant).bind Message.textContent)).getD ""

/-- The name computed by the auto-rename block: the first user message and
the first assistant reply joined by a space; if longer than 120
characters, the first 120 characters are kept, trimmed, and `"..."` is
appended. -/
def deriveThreadName (userMessage aiResponse : String) : String :=
  if (userMessage ++ " " ++ aiResponse).length > 120 then
    jsTrim (jsSubstringTo (userMessage ++ " " ++ aiResponse) 120) ++ "..."
  else
    userMessage ++ " " ++ aiResponse

/-- The observable state of one agent-mode session: the in-memory history,
the repository's view of the thread (messages and name), the list of names
passed to `renameThread` (in call order), the running usage totals, and a
count of provider turns run. `threadName0` — the `thread.name` read by the
rename condition — is NOT part of this state: `runAgentMode` never updates
its local `thread` object, so the condition always reads the initial name. -/
structure SessState where
  history : List Message
  storedMessages : List Message
  storedName : String
  renameEvents : List String
  totalIn : Nat
  totalOut : Nat
  turnsRun : Nat
deriving DecidableEq, Repr

/-- One iteration of the `while (true)` body up to the next-input prompt:
set `conversationHistory` from the turn result, `updateThread`, run the
auto-rename check against the stale `thread.name` (`threadName0`), and
accumulate the turn's usage into the session totals. -/
def applyTurn (threadName0 : String) (tr : TurnResult) (st : SessState) :
    SessState :=
  let history := tr.history
  let st1 : SessState :=
    { st with
      history := history
      storedMessages := history
      turnsRun := st.turnsRun + 1 }
  let st2 : SessState :=
    if jsStartsWith threadName0 "Thread-" && decide (2 ≤ history.length) then
      let userMessage := firstUserContent history
      let aiResponse := firstAssistantContent history
      let truncatedName := deriveThreadName userMessage aiResponse
      { st1 with
        storedName := truncatedName
        renameEvents := st1.renameEvents ++ [truncatedName] }
    else st1
  { st2 with
    totalIn := st2.totalIn + tr.usage.inputTokens
    totalOut := st2.totalOut + tr.usage.outputTokens }

/-- `conversationHistory[conversationHistory.length - 1].role === "assistant"`. -/
def lastIsAssistant (history : List Message) : Bool :=
  match history.getLast? with
  | some (.assistant _) => true
  | _ => false

/-- The `while (true)` loop of `runAgentMode`, embedded over a script of
provider turn results (one per `generateStreamingCompletion` call) and the
pending prompt lines. The loop ends when `processUserInput` reports an
exit sentinel, when the prompt lines run out (the real loop would block),
or when the script runs out (the real loop would await the provider). -/
def sessLoop (threadName0 : String) :
    List TurnResult → List String → SessState → SessState
  | [], _, st => st
  | tr :: script, inputs, st =>
    let st' := applyTurn threadName0 tr st
    if lastIsAssistant tr.history then
      match processUserInput inputs with
      | none => st'
      | some (false, _, _) => st'
      | some (true, _, rest) => sessLoop threadName0 script rest st'
    else
      sessLoop threadName0 script inputs st'

/-- The session state at the top of the loop for a fresh thread: empty
history, the generated default name stored, no renames, zero usage. -/
def freshSessState (threadName0 : String) : SessState :=
  { history := []
    storedMessages := []
    storedName := threadName0
    renameEvents := []
    totalIn := 0
    totalOut := 0
    turnsRun := 0 }

/-! ## Thread store

Modelled from the spec: `SQLiteThreadRepository`
(`src/repositories`) is not under `src/`; its operations are embedded
from §4.4 — `createThread` generates an id and a default name
`Thread-<timestamp>` with an empty message list and persists immediately,
`getThread` returns the thread or an explicit not-found (`none`). -/

structure Thread where
  id : String
  name : String
  messages : List Message
deriving DecidableEq, Repr

/-- Modelled from the spec: the persisted thread rows, keyed by id. -/
abbrev ThreadStore := List (String × Thread)

/-- Modelled from the spec: `getThread(id) -> Thread | not found`. -/
def getThread (store : ThreadStore) (id : String) : Option Thread :=
  (store.find? (fun row => row.1 = id)).map (fun row => row.2)

/-- Modelled from the spec: `createThread()` — generates an id and a
default name `Thread-<timestamp>`, empty messages, persists immediately. -/
def createThread (store : ThreadStore) (timestamp : Nat) :
    Thread × ThreadStore :=
  let t : Thread :=
    { id := toString timestamp
      name := "Thread-" ++ toString timestamp
      messages := [] }
  (t, store ++ [(t.id, t)])

/-- The thread-initialization block of `runAgentMode` (lines 157–180):
with `--thread <id>`, a missing thread is non-fatal and falls back to
`createThread`; without it, a new thread is created. -/
def initThread (store : ThreadStore) (timestamp : Nat)
    (threadId : Option String) : Thread × ThreadStore :=
  match threadId with
  | some tid =>
    match getThread store tid with
    | none => createThread store timestamp
    | some t => (t, store)
  | none => createThread store timestamp

/-! ## Conversation Engine turn loop

Modelled from the spec: the LLM service (`src/services/llm.ts`,
`runTurn` / `generateStreamingCompletion`) is not under `src/`; the turn
loop is embedded from §4.3. The provider is a script of
`CompletionResult`s (one per provider call within the turn) and tool
dispatch is an opaque function from a call to its result message entry. -/

/-- The `inputTokens` contribution of one provider call (`usage` may be
absent; absence is not an error and counts as zero). -/
def usageIn (r : CompletionResult) : Nat :=
  ((r.usage.map TokenUsage.inputTokens)).getD 0

/-- The `outputTokens` contribution of one provider call. -/
def usageOut (r : CompletionResult) : Nat :=
  ((r.usage.map TokenUsage.outputTokens)).getD 0

/-- Modelled from the spec (§4.3 step 3): for each call, in provider
order, append a `function_call` message recording the call, dispatch, and
append the matching `function` message with the result. -/
def toolRoundMessages (dispatch : FunctionCallResult → FunctionCallResponse) :
    List FunctionCallResult → List Message
  | [] => []
  | c :: cs =>
    Message.function_call [c] :: Message.function [dispatch c] ::
      toolRoundMessages dispatch cs

/-- Modelled from the spec (§4.3 steps 2–4): call the provider on the
working history; while the response carries function calls, append the
call/result pairs and resubmit; on a response with no calls, append the
assistant message and finish, returning the history and the usage summed
over every provider call of the turn. `none` models a provider that never
returns a call-free response within the script (the unbounded-round case). -/
def runTurnLoop (dispatch : FunctionCallResult → FunctionCallResponse) :
    List CompletionResult → List Message → Nat → Nat →
    Option (List Message × Nat × Nat)
  | [], _, _, _ => none
  | r :: script, hist, accIn, accOut =>
    match r.functionCalls with
    | [] =>
      some (hist ++ [Message.assistant r.content],
        accIn + usageIn r, accOut + usageOut r)
    | c :: cs =>
      runTurnLoop dispatch script
        (hist ++ toolRoundMessages dispatch (c :: cs))
        (accIn + usageIn r) (accOut + usageOut r)

/-- Modelled from the spec (§4.3 step 1): `runTurn(history, newUserInput)`
appends the user message to a working copy of the history and runs the
provider loop. -/
def runTurn (dispatch : FunctionCallResult → FunctionCallResponse)
    (script : List CompletionResult) (history : List Message)
    (newUserInput : String) : Option (List Message × Nat × Nat) :=
  runTurnLoop dispatch script (history ++ [Message.user newUserInput]) 0 0

/-! ## Helper lemmas on the JS string primitives -/

lemma trimChars_eq_rdropWhile (l : List Char) :
    trimChars l =
      List.rdropWhile isJsWhitespace (List.dropWhile isJsWhitespace l) := by
  simp [trimChars, List.rdropWhile]

lemma dropWhile_trimChars (l : List Char) :
    List.dropWhile isJsWhitespace (trimChars l) = trimChars l := by
  rw [trimChars_eq_rdropWhile]
  rcases h : List.rdropWhile isJsWhitespace (List.dropWhile isJsWhitespace l)
    with _ | ⟨a, t⟩
  · rfl
  · have hpre :=
      List.rdropWhile_prefix isJsWhitespace (List.dropWhile isJsWhitespace l)
    rw [h] at hpre
    obtain ⟨s, hs⟩ := hpre
    have h2 : List.dropWhile isJsWhitespace l = a :: (t ++ s) := by
      rw [← hs]; simp
    have h3 := List.head?_dropWhile_not isJsWhitespace l
    rw [h2] at h3
    simp only [List.head?_cons] at h3
    simp [List.dropWhile_cons, h3]

lemma trimChars_idem (l : List Char) :
    trimChars (trimChars l) = trimChars l := by
  rw [trimChars_eq_rdropWhile (trimChars l), dropWhile_trimChars,
    trimChars_eq_rdropWhile l, List.rdropWhile_idempotent]

lemma jsTrim_idem (s : String) : jsTrim (jsTrim s) = jsTrim s :=
  congrArg String.mk (trimChars_idem s.data)

lemma trimChars_length_le (l : List Char) :
    (trimChars l).length ≤ l.length := by
  simp only [trimChars, List.length_reverse]
  exact le_trans (List.dropWhile_sublist isJsWhitespace).length_le
    (by simpa using (List.dropWhile_sublist isJsWhitespace).length_le)

lemma jsTrim_length_le (s : String) : (jsTrim s).length ≤ s.length :=
  trimChars_length_le s.data

lemma jsSubstringTo_length_le (s : String) (n : Nat) :
    (jsSubstringTo s n).length ≤ n := by
  simp [jsSubstringTo]

/-! ## Concrete demonstration data -/

/-- A first exchange: the user says `hi`, the assistant answers `hello`. -/
def demoTurn1 : TurnResult :=
  { history := [Message.user "hi", Message.assistant "hello"]
    usage := { inputTokens := 3, outputTokens := 5, model := "m" } }

/-- A second exchange appended to the first. -/
def demoTurn2 : TurnResult :=
  { history := [Message.user "hi", Message.assistant "hello",
      Message.user "more", Message.assistant "ok"]
    usage := { inputTokens := 7, outputTokens := 11, model := "m" } }

/-- A 121-character user message. -/
def longUser : String := String.mk (List.replicate 121 'a')

/-- A first exchange whose user message alone exceeds the 120-character cap. -/
def demoLongTurn : TurnResult :=
  { history := [Message.user longUser, Message.assistant "ok"]
    usage := { inputTokens := 1, outputTokens := 1, model := "m" } }

/-- A tool dispatcher that answers every call with a fixed result. -/
def demoDispatch (c : FunctionCallResult) : FunctionCallResponse :=
  { name := c.name, result := "file.txt", error := none, callId := c.callId }

/-- The OpenAI section of `demoConfig`. -/
def demoOpenAISection : ProviderModelConfig :=
  { default := "gpt-4o-mini"
    models := [{ name := "GPT-4o"
                 value := "gpt-4o"
                 pricing := { input := 5, output := 15 } }] }

/-- A models configuration with a single OpenAI section. -/
def demoConfig : ModelsConfig :=
  [(LLMProviderType.openai, demoOpenAISection)]

/-! ## C4 — exit sentinels -/

/-- C4: the session loop terminates, without a further provider call,
exactly on the case-sensitive sentinels `exit`, `quit`, `q`: a sentinel
line makes `processUserInput` report exit; any other line (past the
help/empty handling) proceeds to a turn; and at the prompt after a turn,
a sentinel ends `sessLoop` with no further script entry consumed. -/
theorem exit_sentinels_terminate :
    (∀ raw rest, jsTrim raw ∈ EXIT_COMMANDS →
      processUserInput (raw :: rest) = some (false, jsTrim raw, rest)) ∧
    (∀ raw rest, jsTrim raw ∉ EXIT_COMMANDS → jsTrim raw ≠ HELP_COMMAND →
      jsTrim raw ≠ "" →
      processUserInput (raw :: rest) = some (true, jsTrim raw, rest)) ∧
    (∀ threadName0 tr script raw inputs st,
      lastIsAssistant tr.history = true → jsTrim raw ∈ EXIT_COMMANDS →
      sessLoop threadName0 (tr :: script) (raw :: inputs) st =
        applyTurn threadName0 tr st) := by
  have hexit : ∀ raw rest, jsTrim raw ∈ EXIT_COMMANDS →
      processUserInput (raw :: rest) = some (false, jsTrim raw, rest) := by
    intro raw rest h
    simp [processUserInput, h]
  refine ⟨hexit, ?_, ?_⟩
  · intro raw rest h1 h2 h3
    simp [processUserInput, h1, h2, h3]
  · intro threadName0 tr script raw inputs st h1 h2
    simp [sessLoop, h1, hexit raw inputs h2]

/-- C4 witness: `exit` (trimmed) terminates; `Exit` and `Q` do not match
the case-sensitive set and proceed to a turn; after a completed exchange,
input `exit` ends the session loop right away. -/
theorem exit_sentinels_terminate_witness :
    processUserInput ["exit"] = some (false, "exit", []) ∧
    processUserInput ["Exit"] = some (true, "Exit", []) ∧
    processUserInput ["Q"] = some (true, "Q", []) ∧
    sessLoop "Thread-1" [demoTurn1] ["exit"] (freshSessState "Thread-1") =
      applyTurn "Thread-1" demoTurn1 (freshSessState "Thread-1") := by
  refine ⟨?_, ?_, ?_, ?_⟩
  · have h := exit_sentinels_terminate.1 "exit" [] (by decide)
    simpa using h
  · have h := exit_sentinels_terminate.2.1 "Exit" [] (by decide) (by decide)
      (by decide)
    simpa using h
  · have h := exit_sentinels_terminate.2.1 "Q" [] (by decide) (by decide)
      (by decide)
    simpa using h
  · exact exit_sentinels_terminate.2.2 "Thread-1" demoTurn1 [] "exit" []
      (freshSessState "Thread-1") (by decide) (by decide)

/-! ## C5 — help and empty input -/

/-- C5: a `help` line and an empty line re-prompt: `processUserInput`
recurses past them, and the session loop is unchanged by them — no
provider call, no history append, no turn consumed. -/
theorem help_empty_reprompt :
    (∀ raw rest, jsTrim raw = HELP_COMMAND →
      processUserInput (raw :: rest) = processUserInput rest) ∧
    (∀ raw rest, jsTrim raw = "" →
      processUserInput (raw :: rest) = processUserInput rest) ∧
    (∀ threadName0 script raw inputs st,
      jsTrim raw = HELP_COMMAND ∨ jsTrim raw = "" →
      sessLoop threadName0 script (raw :: inputs) st =
        sessLoop threadName0 script inputs st) := by
  have hhelp : ∀ raw rest, jsTrim raw = HELP_COMMAND →
      processUserInput (raw :: rest) = processUserInput rest := by
    intro raw rest h
    simp [processUserInput, h, HELP_COMMAND, EXIT_COMMANDS]
  have hempty : ∀ raw rest, jsTrim raw = "" →
      processUserInput (raw :: rest) = processUserInput rest := by
    intro raw rest h
    simp [processUserInput, h, HELP_COMMAND, EXIT_COMMANDS]
  refine ⟨hhelp, hempty, ?_⟩
  intro threadName0 script raw inputs st h
  induction script generalizing st with
  | nil => rfl
  | cons tr script ih =>
    have hp : processUserInput (raw :: inputs) = processUserInput inputs := by
      rcases h with h | h
      · exact hhelp raw inputs h
      · exact hempty raw inputs h
    simp only [sessLoop, hp]
    rcases h2 : lastIsAssistant tr.history with _ | _
    · exact ih (applyTurn threadName0 tr st)
    · rfl

/-- C5 witness: a `help` line and a blank line are skipped in place. -/
theorem help_empty_reprompt_witness :
    processUserInput ["help", "exit"] = processUserInput ["exit"] ∧
    processUserInput ["   ", "exit"] = processUserInput ["exit"] ∧
    sessLoop "Thread-1" [demoTurn1] ["help", "exit"]
        (freshSessState "Thread-1") =
      sessLoop "Thread-1" [demoTurn1] ["exit"] (freshSessState "Thread-1") := by
  refine ⟨?_, ?_, ?_⟩
  · exact help_empty_reprompt.1 "help" ["exit"] (by decide)
  · exact help_empty_reprompt.2.1 "   " ["exit"] (by decide)
  · exact help_empty_reprompt.2.2 "Thread-1" [demoTurn1] "help" ["exit"]
      (freshSessState "Thread-1") (Or.inl (by decide))

/-! ## C8 — default model lookup -/

/-- C8: `getDefaultModel` returns the provider section's `default` entry
when the section exists, and otherwise the hardcoded per-provider default
(`gpt-4o`, `claude-3-opus-20240229`, `gemini-1.5-pro`, `llama3`), whether
the whole configuration is absent or only the provider's entry is. -/
theorem getDefaultModel_fallbacks :
    getDefaultModel none LLMProviderType.openai = "gpt-4o" ∧
    getDefaultModel none LLMProviderType.claude = "claude-3-opus-20240229" ∧
    getDefaultModel none LLMProviderType.gemini = "gemini-1.5-pro" ∧
    getDefaultModel none LLMProviderType.ollama = "llama3" ∧
    (∀ c provider, lookupProvider c provider = none →
      getDefaultModel (some c) provider = getDefaultModel none provider) ∧
    (∀ c provider pc, lookupProvider c provider = some pc →
      getDefaultModel (some c) provider = pc.default) := by
  refine ⟨rfl, rfl, rfl, rfl, ?_, ?_⟩
  · intro c provider h
    simp [getDefaultModel, h]
  · intro c provider pc h
    simp [getDefaultModel, h]

/-- C8 witness: with a configuration holding only an OpenAI section, the
Claude default falls back to the hardcoded id while the OpenAI default
comes from the section. -/
theorem getDefaultModel_fallbacks_witness :
    getDefaultModel (some demoConfig) LLMProviderType.claude =
      "claude-3-opus-20240229" ∧
    getDefaultModel (some demoConfig) LLMProviderType.openai =
      "gpt-4o-mini" := by
  constructor
  · exact (getDefaultModel_fallbacks.2.2.2.2.1 demoConfig LLMProviderType.claude
      (by decide)).trans getDefaultModel_fallbacks.2.1
  · exact getDefaultModel_fallbacks.2.2.2.2.2 demoConfig LLMProviderType.openai
      demoOpenAISection (by decide)

/-! ## C9 — cost of an unknown model -/

/-- C9: when the model value has no entry in the models configuration
(including an absent configuration), `calculateCost` returns exactly 0
for all token counts. -/
theorem calculateCost_unknown_model_zero (config : Option ModelsConfig)
    (modelValue : String) (inputTokens outputTokens : Nat)
    (h : getModelByValue config modelValue = none) :
    calculateCost config modelValue inputTokens outputTokens = 0 := by
  simp [calculateCost, h]

/-- C9 witness: an unknown model id costs 0 under the demo configuration,
and anything costs 0 with the configuration absent. -/
theorem calculateCost_unknown_model_zero_witness :
    calculateCost (some demoConfig) "no-such-model" 5 7 = 0 ∧
    calculateCost none "gpt-4o" 1000000 1000000 = 0 := by
  constructor
  · exact calculateCost_unknown_model_zero (some demoConfig) "no-such-model"
      5 7 (by decide)
  · exact calculateCost_unknown_model_zero none "gpt-4o" 1000000 1000000 rfl

/-! ## C10 — input trimming -/

/-- C10: `processUserInput` classifies the trimmed input — processing a
raw line is the same as processing its trimmed form — and the string it
returns carries no surrounding whitespace. -/
theorem processUserInput_trims :
    (∀ raw rest, processUserInput (raw :: rest) =
      processUserInput (jsTrim raw :: rest)) ∧
    (∀ inputs b s rest, processUserInput inputs = some (b, s, rest) →
      jsTrim s = s) := by
  constructor
  · intro raw rest
    simp only [processUserInput, jsTrim_idem]
  · intro inputs
    induction inputs with
    | nil => intro b s rest h; cases h
    | cons raw rest ih =>
      intro b s r h
      rw [processUserInput] at h
      split at h
      · cases h; exact jsTrim_idem raw
      · split at h
        · exact ih _ _ _ h
        · split at h
          · exact ih _ _ _ h
          · cases h; exact jsTrim_idem raw

/-- C10 witness: `"  exit  "` is handled as `"exit"` and terminates, a
whitespace-only line re-prompts, and the delivered string is trimmed. -/
theorem processUserInput_trims_witness :
    processUserInput ["  exit  "] = processUserInput ["exit"] ∧
    jsTrim "exit" = "exit" ∧
    processUserInput ["  exit  "] = some (false, "exit", []) := by
  refine ⟨?_, ?_, by decide⟩
  · have h := processUserInput_trims.1 "  exit  " []
    simpa using h
  · exact processUserInput_trims.2 ["  exit  "] false "exit" [] (by decide)

/-! ## Helper lemmas on the session loop -/

lemma applyTurn_turnsRun (tn : String) (tr : TurnResult) (st : SessState) :
    (applyTurn tn tr st).turnsRun = st.turnsRun + 1 := by
  simp only [applyTurn]
  split <;> rfl

lemma applyTurn_totalIn (tn : String) (tr : TurnResult) (st : SessState) :
    (applyTurn tn tr st).totalIn = st.totalIn + tr.usage.inputTokens := by
  simp only [applyTurn]
  split <;> rfl

lemma applyTurn_totalOut (tn : String) (tr : TurnResult) (st : SessState) :
    (applyTurn tn tr st).totalOut = st.totalOut + tr.usage.outputTokens := by
  simp only [applyTurn]
  split <;> rfl

lemma applyTurn_rename_pos (tn : String) (tr : TurnResult) (st : SessState)
    (h1 : jsStartsWith tn "Thread-" = true) (h2 : 2 ≤ tr.history.length) :
    (applyTurn tn tr st).renameEvents = st.renameEvents ++
      [deriveThreadName (firstUserContent tr.history)
        (firstAssistantContent tr.history)] ∧
    (applyTurn tn tr st).storedName =
      deriveThreadName (firstUserContent tr.history)
        (firstAssistantContent tr.history) := by
  simp only [applyTurn]
  rw [if_pos (by simp [h1, h2])]
  exact ⟨rfl, rfl⟩

lemma applyTurn_renameEvents_cases (tn : String) (tr : TurnResult)
    (st : SessState) :
    (applyTurn tn tr st).renameEvents = st.renameEvents ∨
    (applyTurn tn tr st).renameEvents = st.renameEvents ++
      [deriveThreadName (firstUserContent tr.history)
        (firstAssistantContent tr.history)] := by
  simp only [applyTurn]
  split
  · right; rfl
  · left; rfl

lemma sessLoop_cons_notAssistant (tn : String) (tr : TurnResult)
    (script : List TurnResult) (inputs : List String) (st : SessState)
    (h2 : lastIsAssistant tr.history = false) :
    sessLoop tn (tr :: script) inputs st =
      sessLoop tn script inputs (applyTurn tn tr st) := by
  simp [sessLoop, h2]

lemma sessLoop_cons_noInput (tn : String) (tr : TurnResult)
    (script : List TurnResult) (inputs : List String) (st : SessState)
    (h2 : lastIsAssistant tr.history = true)
    (hp : processUserInput inputs = none) :
    sessLoop tn (tr :: script) inputs st = applyTurn tn tr st := by
  simp [sessLoop, h2, hp]

lemma sessLoop_cons_exit (tn : String) (tr : TurnResult)
    (script : List TurnResult) (inputs : List String) (st : SessState)
    (s : String) (rest : List String)
    (h2 : lastIsAssistant tr.history = true)
    (hp : processUserInput inputs = some (false, s, rest)) :
    sessLoop tn (tr :: script) inputs st = applyTurn tn tr st := by
  simp [sessLoop, h2, hp]

lemma sessLoop_cons_continue (tn : String) (tr : TurnResult)
    (script : List TurnResult) (inputs : List String) (st : SessState)
    (s : String) (rest : List String)
    (h2 : lastIsAssistant tr.history = true)
    (hp : processUserInput inputs = some (true, s, rest)) :
    sessLoop tn (tr :: script) inputs st =
      sessLoop tn script rest (applyTurn tn tr st) := by
  simp [sessLoop, h2, hp]

/-! ## C6 — usage accumulation -/

/-- C6: the session usage totals accumulate additively: any run of the
session loop executes some number `k` of turns, and the final
`totalUsage.inputTokens` (resp. `outputTokens`) is the initial total plus
the sum of the per-turn usages of those `k` turns — in particular the
totals never decrease or reset within a running session. -/
theorem usage_accumulates (threadName0 : String) (script : List TurnResult)
    (inputs : List String) (st : SessState) :
    ∃ k, k ≤ script.length ∧
      (sessLoop threadName0 script inputs st).turnsRun = st.turnsRun + k ∧
      (sessLoop threadName0 script inputs st).totalIn =
        st.totalIn +
          (((script.take k).map (fun tr => tr.usage.inputTokens)).sum) ∧
      (sessLoop threadName0 script inputs st).totalOut =
        st.totalOut +
          (((script.take k).map (fun tr => tr.usage.outputTokens)).sum) := by
  induction script generalizing inputs st with
  | nil => exact ⟨0, by simp [sessLoop]⟩
  | cons tr script ih =>
    rcases h2 : lastIsAssistant tr.history with _ | _
    · rw [sessLoop_cons_notAssistant threadName0 tr script inputs st h2]
      obtain ⟨k, hk, ht, hi, ho⟩ := ih inputs (applyTurn threadName0 tr st)
      refine ⟨k + 1, by simpa using Nat.succ_le_succ hk, ?_, ?_, ?_⟩
      · rw [ht, applyTurn_turnsRun]; omega
      · rw [hi, applyTurn_totalIn]
        simp only [List.take_succ_cons, List.map_cons, List.sum_cons]
        omega
      · rw [ho, applyTurn_totalOut]
        simp only [List.take_succ_cons, List.map_cons, List.sum_cons]
        omega
    · rcases hp : processUserInput inputs with _ | ⟨b, s, rest⟩
      · rw [sessLoop_cons_noInput threadName0 tr script inputs st h2 hp]
        refine ⟨1, by simp, ?_, ?_, ?_⟩
        · rw [applyTurn_turnsRun]
        · rw [applyTurn_totalIn]
          simp [List.take_succ_cons]
        · rw [applyTurn_totalOut]
          simp [List.take_succ_cons]
      · rcases b with _ | _
        · rw [sessLoop_cons_exit threadName0 tr script inputs st s rest h2 hp]
          refine ⟨1, by simp, ?_, ?_, ?_⟩
          · rw [applyTurn_turnsRun]
          · rw [applyTurn_totalIn]
            simp [List.take_succ_cons]
          · rw [applyTurn_totalOut]
            simp [List.take_succ_cons]
        · rw [sessLoop_cons_continue threadName0 tr script inputs st s rest
            h2 hp]
          obtain ⟨k, hk, ht, hi, ho⟩ := ih rest (applyTurn threadName0 tr st)
          refine ⟨k + 1, by simpa using Nat.succ_le_succ hk, ?_, ?_, ?_⟩
          · rw [ht, applyTurn_turnsRun]; omega
          · rw [hi, applyTurn_totalIn]
            simp only [List.take_succ_cons, List.map_cons, List.sum_cons]
            omega
          · rw [ho, applyTurn_totalOut]
            simp only [List.take_succ_cons, List.map_cons, List.sum_cons]
            omega

set_option maxRecDepth 40000

/-! ## C2 — thread auto-rename -/

/-- C2 counterexample: a fresh default-named thread, two completed
user+assistant exchanges — `renameThread` is invoked after BOTH
exchanges (the in-memory `thread.name` is never refreshed), not exactly
once; both invocations store the name derived from the first exchange. -/
theorem autoRename_fires_again_run :
    (sessLoop "Thread-1" [demoTurn1, demoTurn2] ["more", "exit"]
      (freshSessState "Thread-1")).renameEvents =
      ["hi hello", "hi hello"] := by decide

/-- C2 amended: for a thread whose initial name is default (`Thread-*`),
the rename condition fires after every completed exchange, but as long as
the histories agree on the first user and first assistant message (they
do: histories only grow by appends), every invocation stores the same
derived name — so the stored name is stable after the first exchange, and
the number of rename invocations equals the number of turns run. -/
theorem autoRename_same_name (threadName0 u a : String)
    (script : List TurnResult) (inputs : List String) (st : SessState)
    (hT : jsStartsWith threadName0 "Thread-" = true)
    (hU : ∀ tr ∈ script, firstUserContent tr.history = u)
    (hA : ∀ tr ∈ script, firstAssistantContent tr.history = a)
    (hL : ∀ tr ∈ script, 2 ≤ tr.history.length)
    (hE : ∀ m ∈ st.renameEvents, m = deriveThreadName u a)
    (hS : st.storedName = threadName0 ∨
      st.storedName = deriveThreadName u a) :
    (∀ m ∈ (sessLoop threadName0 script inputs st).renameEvents,
      m = deriveThreadName u a) ∧
    ((sessLoop threadName0 script inputs st).storedName = threadName0 ∨
      (sessLoop threadName0 script inputs st).storedName =
        deriveThreadName u a) ∧
    (sessLoop threadName0 script inputs st).renameEvents.length +
        st.turnsRun =
      st.renameEvents.length +
        (sessLoop threadName0 script inputs st).turnsRun := by
  induction script generalizing inputs st with
  | nil => exact ⟨hE, hS, by simp [sessLoop]⟩
  | cons tr script ih =>
    have htr := applyTurn_rename_pos threadName0 tr st hT
      (hL tr (by simp))
    have hu := hU tr (by simp)
    have ha := hA tr (by simp)
    have hE' : ∀ m ∈ (applyTurn threadName0 tr st).renameEvents,
        m = deriveThreadName u a := by
      intro m hm
      rw [htr.1, hu, ha] at hm
      rcases List.mem_append.mp hm with h | h
      · exact hE m h
      · simpa using h
    have hS' : (applyTurn threadName0 tr st).storedName = threadName0 ∨
        (applyTurn threadName0 tr st).storedName =
          deriveThreadName u a := by
      right
      rw [htr.2, hu, ha]
    have hlen : (applyTurn threadName0 tr st).renameEvents.length =
        st.renameEvents.length + 1 := by
      rw [htr.1]; simp
    have hturn := applyTurn_turnsRun threadName0 tr st
    have hUt : ∀ x ∈ script, firstUserContent x.history = u :=
      fun x hx => hU x (by simp [hx])
    have hAt : ∀ x ∈ script, firstAssistantContent x.history = a :=
      fun x hx => hA x (by simp [hx])
    have hLt : ∀ x ∈ script, 2 ≤ x.history.length :=
      fun x hx => hL x (by simp [hx])
    rcases h2 : lastIsAssistant tr.history with _ | _
    · rw [sessLoop_cons_notAssistant threadName0 tr script inputs st h2]
      obtain ⟨c1, c2, c3⟩ :=
        ih inputs (applyTurn threadName0 tr st) hUt hAt hLt hE' hS'
      exact ⟨c1, c2, by omega⟩
    · rcases hp : processUserInput inputs with _ | ⟨b, s, rest⟩
      · rw [sessLoop_cons_noInput threadName0 tr script inputs st h2 hp]
        exact ⟨hE', hS', by omega⟩
      · rcases b with _ | _
        · rw [sessLoop_cons_exit threadName0 tr script inputs st s rest
            h2 hp]
          exact ⟨hE', hS', by omega⟩
        · rw [sessLoop_cons_continue threadName0 tr script inputs st s rest
            h2 hp]
          obtain ⟨c1, c2, c3⟩ :=
            ih rest (applyTurn threadName0 tr st) hUt hAt hLt hE' hS'
          exact ⟨c1, c2, by omega⟩

/-- C2 witness: over the two-exchange demo run, the stored name is either
still the default or the name derived from the first exchange. -/
theorem autoRename_same_name_witness :
    (sessLoop "Thread-1" [demoTurn1, demoTurn2] ["more", "exit"]
        (freshSessState "Thread-1")).storedName = "Thread-1" ∨
    (sessLoop "Thread-1" [demoTurn1, demoTurn2] ["more", "exit"]
        (freshSessState "Thread-1")).storedName =
      deriveThreadName "hi" "hello" :=
  (autoRename_same_name "Thread-1" "hi" "hello" [demoTurn1, demoTurn2]
    ["more", "exit"] (freshSessState "Thread-1") (by decide) (by decide)
    (by decide) (by decide) (by simp [freshSessState]) (Or.inl rfl)).2.1

/-! ## C3 — derived thread name and its cap -/

/-- C3 counterexample: a 121-character first user message makes the
stored thread name 123 characters long — the code truncates the content
to 120 characters and then appends the 3-character `"..."`, so the stored
name can exceed 120 characters. -/
theorem autoRename_name_123_run :
    ((sessLoop "Thread-9" [demoLongTurn] ["exit"]
      (freshSessState "Thread-9")).storedName).length = 123 := by decide

/-- C3 amended: the derived name is the first user message and first
assistant reply joined by a space; when that exceeds 120 characters it is
cut to at most 120 characters (then trimmed) and `"..."` is appended —
so every name passed to `renameThread` is at most 123 characters (120 of
content plus the ellipsis), not 120. -/
theorem autoRename_name_bound :
    (∀ u a, (deriveThreadName u a).length ≤ 123) ∧
    (∀ u a, 120 < (u ++ " " ++ a).length →
      ∃ core, deriveThreadName u a = core ++ "..." ∧ core.length ≤ 120) ∧
    (∀ threadName0 script inputs st m,
      (∀ x ∈ st.renameEvents, x.length ≤ 123) →
      m ∈ (sessLoop threadName0 script inputs st).renameEvents →
      m.length ≤ 123) := by
  have hbound : ∀ u a : String, (deriveThreadName u a).length ≤ 123 := by
    intro u a
    unfold deriveThreadName
    split
    · rw [String.length_append]
      have h1 := jsTrim_length_le (jsSubstringTo (u ++ " " ++ a) 120)
      have h2 := jsSubstringTo_length_le (u ++ " " ++ a) 120
      have h3 : ("..." : String).length = 3 := rfl
      omega
    · rename_i h
      omega
  refine ⟨hbound, ?_, ?_⟩
  · intro u a h
    refine ⟨jsTrim (jsSubstringTo (u ++ " " ++ a) 120), ?_, ?_⟩
    · unfold deriveThreadName
      rw [if_pos h]
    · exact le_trans (jsTrim_length_le _) (jsSubstringTo_length_le _ _)
  · intro threadName0 script inputs st m hst hm
    induction script generalizing inputs st with
    | nil => exact hst m hm
    | cons tr script ih =>
      have hst' : ∀ x ∈ (applyTurn threadName0 tr st).renameEvents,
          x.length ≤ 123 := by
        intro x hx
        rcases applyTurn_renameEvents_cases threadName0 tr st with h | h
        · exact hst x (h ▸ hx)
        · rw [h] at hx
          rcases List.mem_append.mp hx with h' | h'
          · exact hst x h'
          · have : x = deriveThreadName (firstUserContent tr.history)
                (firstAssistantContent tr.history) := by simpa using h'
            rw [this]
            exact hbound _ _
      rcases h2 : lastIsAssistant tr.history with _ | _
      · rw [sessLoop_cons_notAssistant threadName0 tr script inputs st h2]
          at hm
        exact ih inputs (applyTurn threadName0 tr st) hst' hm
      · rcases hp : processUserInput inputs with _ | ⟨b, s, rest⟩
        · rw [sessLoop_cons_noInput threadName0 tr script inputs st h2 hp]
            at hm
          exact hst' m hm
        · rcases b with _ | _
          · rw [sessLoop_cons_exit threadName0 tr script inputs st s rest
              h2 hp] at hm
            exact hst' m hm
          · rw [sessLoop_cons_continue threadName0 tr script inputs st s
              rest h2 hp] at hm
            exact ih rest (applyTurn threadName0 tr st) hst' hm

/-- C3 witness: the 124-character combined content of the long demo
exchange yields a name of the `core ++ "..."` shape with the core at most
120 characters, and every name bound holds on the demo run's rename
event. -/
theorem autoRename_name_bound_witness :
    (deriveThreadName longUser "ok").length ≤ 123 ∧
    (∃ core, deriveThreadName longUser "ok" = core ++ "..." ∧
      core.length ≤ 120) ∧
    ("hi hello" : String).length ≤ 123 := by
  refine ⟨autoRename_name_bound.1 longUser "ok", ?_, ?_⟩
  · exact autoRename_name_bound.2.1 longUser "ok" (by decide)
  · exact autoRename_name_bound.2.2 "Thread-1" [demoTurn1] ["exit"]
      (freshSessState "Thread-1") "hi hello" (by simp [freshSessState])
      (by decide)

/-! ## C7 — missing thread falls back to a new thread -/

/-- C7: requesting a thread id that is not stored is non-fatal:
`getThread` reports not-found and the initialization block creates a new
thread with a generated `Thread-*` default name, empty messages, and
persists it. -/
theorem threadNotFound_fallback (store : ThreadStore) (timestamp : Nat)
    (tid : String) (h : getThread store tid = none) :
    jsStartsWith (initThread store timestamp (some tid)).1.name
      "Thread-" = true ∧
    (initThread store timestamp (some tid)).1.messages = [] ∧
    (initThread store timestamp (some tid)).2 =
      store ++ [((initThread store timestamp (some tid)).1.id,
        (initThread store timestamp (some tid)).1)] := by
  simp [initThread, h, createThread, jsStartsWith, List.take_left]

/-- C7 witness: looking up `"nonexistent"` in an empty store falls back
to a freshly created default-named thread. -/
theorem threadNotFound_fallback_witness :
    jsStartsWith (initThread [] 42 (some "nonexistent")).1.name
      "Thread-" = true ∧
    (initThread [] 42 (some "nonexistent")).1.messages = [] := by
  have h := threadNotFound_fallback [] 42 "nonexistent" rfl
  exact ⟨h.1, h.2.1⟩

/-! ## C1 — the turn loop is append-only -/

lemma runTurnLoop_extends
    (dispatch : FunctionCallResult → FunctionCallResponse) :
    ∀ (script : List CompletionResult) (hist : List Message)
      (accIn accOut : Nat) (h' : List Message) (ui uo : Nat),
      runTurnLoop dispatch script hist accIn accOut = some (h', ui, uo) →
      ∃ tail, h' = hist ++ tail := by
  intro script
  induction script with
  | nil => intro hist accIn accOut h' ui uo h; cases h
  | cons r script ih =>
    intro hist accIn accOut h' ui uo h
    rw [runTurnLoop] at h
    rcases hfc : r.functionCalls with _ | ⟨c, cs⟩
    · rw [hfc] at h
      cases h
      exact ⟨[Message.assistant r.content], rfl⟩
    · rw [hfc] at h
      obtain ⟨t, ht⟩ := ih _ _ _ _ _ _ h
      exact ⟨toolRoundMessages dispatch (c :: cs) ++ t,
        by rw [ht, List.append_assoc]⟩

/-- C1: one conversation turn only appends: whenever
`runTurn(history, input)` completes, the returned history is the input
history followed by some appended tail — every prior message keeps its
index, unmutated and unreordered. -/
theorem runTurn_append_only
    (dispatch : FunctionCallResult → FunctionCallResponse)
    (script : List CompletionResult) (history : List Message)
    (newUserInput : String) (h' : List Message) (ui uo : Nat)
    (h : runTurn dispatch script history newUserInput =
      some (h', ui, uo)) :
    ∃ tail, h' = history ++ tail := by
  obtain ⟨t, ht⟩ := runTurnLoop_extends dispatch script
    (history ++ [Message.user newUserInput]) 0 0 h' ui uo h
  exact ⟨Message.user newUserInput :: t, by rw [ht]; simp⟩

/-- The provider script of the spec's tool-call scenario: one
`executeCommand` call, then the final text `Done.`. -/
def demoScript : List CompletionResult :=
  [{ content := ""
     functionCalls := [{ name := "executeCommand"
                         arguments := [("command", "ls")]
                         callId := "c1" }]
     usage := none },
   { content := "Done."
     functionCalls := []
     usage := some { inputTokens := 2, outputTokens := 3, model := "m" } }]

/-- C1 witness: the spec's tool-call scenario run from a two-message
history extends that history in place. -/
theorem runTurn_append_only_witness :
    ∃ tail,
      [Message.user "hi", Message.assistant "hello",
        Message.user "list files",
        Message.function_call [{ name := "executeCommand"
                                 arguments := [("command", "ls")]
                                 callId := "c1" }],
        Message.function [{ name := "executeCommand"
                            result := "file.txt"
                            error := none
                            callId := "c1" }],
        Message.assistant "Done."] =
      [Message.user "hi", Message.assistant "hello"] ++ tail :=
  runTurn_append_only demoDispatch demoScript
    [Message.user "hi", Message.assistant "hello"] "list files" _ 2 3
    (by decide)

end TerminalAI
